import Mathlib

/-!
Verification of the Beast-format Mode S frame synthesizer
(`mlat/beastframes.py`).

The Python module is embedded shallowly:

* Python floats are modelled as exact rationals (`ℚ`);
* Python `int(x)` (truncation toward zero) is `qtrunc`;
* `math.fmod` is `value - modulus * qtrunc (value / modulus)`;
* Python arbitrary-precision integers are `ℤ`/`ℕ`, with `&`,`|`,`<<`,`>>`
  written as the corresponding Lean bitwise operations;
* the frame `bytearray` is a `List ℕ` built from the exact per-byte
  expressions of the source;
* the external checksum `modes_crc.parity` (explicitly out of scope for the
  repository) is a function parameter `parity : List ℕ → ℕ`;
* the `df` frame-variant argument is a `String`, as in the source, and the
  `ValueError` raised on an unknown variant becomes an `Option` `none`.
-/

/-- Python `int()` applied to a rational: truncation toward zero. -/
def qtrunc (q : ℚ) : ℤ := if q < 0 then ⌈q⌉ else ⌊q⌋

/-- `math.fmod (value, modulus)`: `value - modulus * trunc (value / modulus)`,
followed by the source's shift of a negative remainder up by the modulus
(`_cpr_mod` in `beastframes.py`). -/
def _cpr_mod (value modulus : ℚ) : ℚ :=
  let remainder := value - modulus * (qtrunc (value / modulus) : ℚ)
  if remainder < 0 then remainder + modulus else remainder

/-- The `_NL_TABLE` of `beastframes.py`: latitude breakpoints (as exact
decimal rationals) paired with CPR zone counts. -/
def _NL_TABLE : List (ℚ × ℤ) :=
  [(1047047130 / 100000000, 59),
   (1482817437 / 100000000, 58),
   (1818626357 / 100000000, 57),
   (2102939493 / 100000000, 56),
   (2354504487 / 100000000, 55),
   (2582924707 / 100000000, 54),
   (2793898710 / 100000000, 53),
   (2991135686 / 100000000, 52),
   (3177209708 / 100000000, 51),
   (3353993436 / 100000000, 50),
   (3522899598 / 100000000, 49),
   (3685025108 / 100000000, 48),
   (3841241892 / 100000000, 47),
   (3992256684 / 100000000, 46),
   (4138651832 / 100000000, 45),
   (4280914012 / 100000000, 44),
   (4419454951 / 100000000, 43),
   (4554626723 / 100000000, 42),
   (4686733252 / 100000000, 41),
   (4816039128 / 100000000, 40),
   (4942776439 / 100000000, 39),
   (5067150166 / 100000000, 38),
   (5189342469 / 100000000, 37),
   (5309516153 / 100000000, 36),
   (5427817472 / 100000000, 35),
   (5544378444 / 100000000, 34),
   (5659318756 / 100000000, 33),
   (5772747354 / 100000000, 32),
   (5884763776 / 100000000, 31),
   (5995459277 / 100000000, 30),
   (6104917774 / 100000000, 29),
   (6213216659 / 100000000, 28),
   (6320427479 / 100000000, 27),
   (6426616523 / 100000000, 26),
   (6531845310 / 100000000, 25),
   (6636171008 / 100000000, 24),
   (6739646774 / 100000000, 23),
   (6842322022 / 100000000, 22),
   (6944242631 / 100000000, 21),
   (7045451075 / 100000000, 20),
   (7145986473 / 100000000, 19),
   (7245884545 / 100000000, 18),
   (7345177442 / 100000000, 17),
   (7443893416 / 100000000, 16),
   (7542056257 / 100000000, 15),
   (7639684391 / 100000000, 14),
   (7736789461 / 100000000, 13),
   (7833374083 / 100000000, 12),
   (7929428225 / 100000000, 11),
   (8024923213 / 100000000, 10),
   (8119801349 / 100000000, 9),
   (8213956981 / 100000000, 8),
   (8307199445 / 100000000, 7),
   (8399173563 / 100000000, 6),
   (8489166191 / 100000000, 5),
   (8575541621 / 100000000, 4),
   (8653536998 / 100000000, 3),
   (8700000000 / 100000000, 2),
   (9000000000 / 100000000, 1)]

/-- `_NL_LATS = [row[0] for row in _NL_TABLE]`. -/
def _NL_LATS : List ℚ := _NL_TABLE.map Prod.fst

/-- `_NL_VALS = [row[1] for row in _NL_TABLE]`. -/
def _NL_VALS : List ℤ := _NL_TABLE.map Prod.snd

/-- The loop of CPython's `bisect.bisect_left`:
`while lo < hi: mid = (lo+hi)//2; if a[mid] < x: lo = mid+1 else: hi = mid`. -/
def bisectLoop (a : List ℚ) (x : ℚ) (lo hi : ℕ) : ℕ :=
  if h : lo < hi then
    if a.getD ((lo + hi) / 2) 0 < x then bisectLoop a x ((lo + hi) / 2 + 1) hi
    else bisectLoop a x lo ((lo + hi) / 2)
  else lo
termination_by hi - lo
decreasing_by
  · have hm : lo ≤ (lo + hi) / 2 :=
      (Nat.le_div_iff_mul_le (by norm_num)).mpr (by omega)
    omega
  · have hm : (lo + hi) / 2 < hi :=
      (Nat.div_lt_iff_lt_mul (by norm_num)).mpr (by omega)
    omega

/-- `bisect.bisect_left(a, x)` over the whole list. -/
def bisect_left (a : List ℚ) (x : ℚ) : ℕ := bisectLoop a x 0 a.length

/-- `_cpr_nl(lat)` of `beastframes.py`: absolute latitude, `bisect_left`
into the breakpoint list, zone count `1` past the end of the table. -/
def _cpr_nl (lat : ℚ) : ℤ :=
  let idx := bisect_left _NL_LATS |lat|
  if idx ≥ _NL_VALS.length then 1 else _NL_VALS.getD idx 0

/-- `_cpr_n(lat, odd)` of `beastframes.py`: `NL(lat) - odd`, floored at 1. -/
def _cpr_n (lat : ℚ) (odd : Bool) : ℤ :=
  let nl := _cpr_nl lat - (if odd then 1 else 0)
  if nl < 1 then 1 else nl

/-- `_cpr_encode(lat, lon, odd)` of `beastframes.py`: the 17-bit CPR
latitude/longitude codes, with `nb = 1 << 17` and the trailing
`& 0x1FFFF` masks rendered as `Int.emod` by `2^17` (Python's `&` on a
nonnegative mask is reduction mod the power of two). -/
def _cpr_encode (lat lon : ℚ) (odd : Bool) : ℕ × ℕ :=
  let nb : ℚ := 131072
  let dlat : ℚ := 360 / (if odd then 59 else 60)
  let yz : ℤ := ⌊nb * (_cpr_mod lat dlat / dlat) + 1 / 2⌋
  let rlat : ℚ := dlat * ((yz : ℚ) / nb + (⌊lat / dlat⌋ : ℚ))
  let dlon : ℚ := 360 / ((_cpr_n rlat odd : ℤ) : ℚ)
  let xz : ℤ := ⌊nb * (_cpr_mod lon dlon / dlon) + 1 / 2⌋
  ((yz.emod 131072).toNat, (xz.emod 131072).toNat)

/-- `_encode_altitude(feet)` of `beastframes.py`; `None` is `none`. -/
def _encode_altitude : Option ℚ → ℕ
  | none => 0
  | some feet =>
    let index : ℤ := qtrunc ((feet + 2025 / 2) / 25)
    let clamped : ℤ := if index < 0 then 0 else if index > 0x7FF then 0x7FF else index
    ((clamped.toNat &&& 0x7F0) <<< 1) ||| 0x010 ||| (clamped.toNat &&& 0x00F)

/-- `_encode_velocity(knots, supersonic)` of `beastframes.py`. -/
def _encode_velocity : Option ℚ → Bool → ℕ
  | none, _ => 0
  | some knots, supersonic =>
    let sign : ℕ := if knots < 0 then 0x400 else 0
    let k : ℚ := if knots < 0 then -knots else knots
    let k2 : ℚ := if supersonic then k / 4 else k
    let value : ℤ := qtrunc (k2 + 3 / 2)
    (if value > 1023 then 1023 else value.toNat) ||| sign

/-- `_encode_vrate(fpm)` of `beastframes.py`. -/
def _encode_vrate : Option ℚ → ℕ
  | none => 0
  | some fpm =>
    let sign : ℕ := if fpm < 0 then 0x200 else 0
    let f : ℚ := if fpm < 0 then -fpm else fpm
    let value : ℤ := qtrunc (f / 64 + 3 / 2)
    (if value > 511 then 511 else value.toNat) ||| sign

/-- `_apply_crc(frame)` of `beastframes.py`: compute the external parity of
bytes 0..10 and write it big-endian into bytes 11..13. -/
def _apply_crc (parity : List ℕ → ℕ) (frame : List ℕ) : List ℕ :=
  let p := parity (frame.take 11)
  frame.take 11 ++ [(p >>> 16) &&& 0xFF, (p >>> 8) &&& 0xFF, p &&& 0xFF]

/-- `_make_frame_prefix(df)` of `beastframes.py` (named `_make_frame_head`
here): the `(format byte, IMF bit)` pair for a variant string, `none` for
the `ValueError` raised on any other variant. -/
def _make_frame_head (df : String) : Option (ℕ × ℕ) :=
  if df = "DF18" then some ((18 <<< 3) ||| 2, 0)
  else if df = "DF18ANON" then some ((18 <<< 3) ||| 5, 0)
  else if df = "DF18TRACK" then some ((18 <<< 3) ||| 2, 1)
  else none

/-- The `velocities` list built by `make_velocity_frame`: absolute values of
the components that are present. -/
def velocitiesList (ns ew : Option ℚ) : List ℚ :=
  (match ns with | some v => [|v|] | none => []) ++
  (match ew with | some v => [|v|] | none => [])

/-- `supersonic = any(v > 1000 for v in velocities)`. -/
def supersonicFlag (ns ew : Option ℚ) : Bool :=
  (velocitiesList ns ew).any fun v => decide (v > 1000)

/-- `_make_position_frame(metype, addr, elat, elon, ealt, oddflag, df)` of
`beastframes.py`: the 14-byte buffer, written out byte for byte, sealed by
`_apply_crc`. -/
def _make_position_frame (parity : List ℕ → ℕ) (metype addr elat elon ealt : ℕ)
    (oddflag : Bool) (df : String) : Option (List ℕ) :=
  match _make_frame_head df with
  | none => none
  | some pi =>
    some (_apply_crc parity
      [pi.1,
       (addr >>> 16) &&& 0xFF,
       (addr >>> 8) &&& 0xFF,
       addr &&& 0xFF,
       (metype <<< 3) ||| pi.2,
       (ealt >>> 4) &&& 0xFF,
       ((ealt &&& 0x0F) <<< 4) ||| (if oddflag then 0x04 else 0) ||| ((elat >>> 15) &&& 0x03),
       (elat >>> 7) &&& 0xFF,
       ((elat &&& 0x7F) <<< 1) ||| ((elon >>> 16) &&& 0x01),
       (elon >>> 8) &&& 0xFF,
       elon &&& 0xFF,
       0, 0, 0])

/-- `make_position_frame_pair(addr, lat, lon, altitude_ft, df)`. -/
def make_position_frame_pair (parity : List ℕ → ℕ) (addr : ℕ) (lat lon : ℚ)
    (altitude_ft : Option ℚ) (df : String) : Option (List ℕ × List ℕ) :=
  match _make_position_frame parity 18 addr (_cpr_encode lat lon false).1
          (_cpr_encode lat lon false).2 (_encode_altitude altitude_ft) false df,
        _make_position_frame parity 18 addr (_cpr_encode lat lon true).1
          (_cpr_encode lat lon true).2 (_encode_altitude altitude_ft) true df with
  | some fe, some fo => some (fe, fo)
  | _, _ => none

/-- `make_altitude_only_frame(addr, altitude_ft, df)`. -/
def make_altitude_only_frame (parity : List ℕ → ℕ) (addr : ℕ)
    (altitude_ft : Option ℚ) (df : String) : Option (List ℕ) :=
  _make_position_frame parity 0 addr 0 0 (_encode_altitude altitude_ft) false df

/-- `make_velocity_frame(addr, nsvel_knots, ewvel_knots, vrate_fpm, df)`,
with the shared supersonic decision inlined as `supersonicFlag`. -/
def make_velocity_frame (parity : List ℕ → ℕ) (addr : ℕ)
    (nsvel ewvel vrate : Option ℚ) (df : String) : Option (List ℕ) :=
  match _make_frame_head df with
  | none => none
  | some pi =>
    some (_apply_crc parity
      [pi.1,
       (addr >>> 16) &&& 0xFF,
       (addr >>> 8) &&& 0xFF,
       addr &&& 0xFF,
       (19 <<< 3) ||| (if supersonicFlag nsvel ewvel then 2 else 1),
       (pi.2 <<< 7) ||| ((_encode_velocity ewvel (supersonicFlag nsvel ewvel) >>> 8) &&& 0x07),
       _encode_velocity ewvel (supersonicFlag nsvel ewvel) &&& 0xFF,
       (_encode_velocity nsvel (supersonicFlag nsvel ewvel) >>> 3) &&& 0xFF,
       ((_encode_velocity nsvel (supersonicFlag nsvel ewvel) &&& 0x07) <<< 5) ||| 0x10
         ||| ((_encode_vrate vrate >>> 6) &&& 0x0F),
       (_encode_vrate vrate &&& 0x3F) <<< 2,
       0, 0, 0, 0])

/-! ## Basic facts about the numeric helpers -/

theorem qtrunc_of_nonneg {q : ℚ} (h : 0 ≤ q) : qtrunc q = ⌊q⌋ := by
  simp [qtrunc, not_lt.mpr h]

theorem one_le_qtrunc {q : ℚ} (h : 1 ≤ q) : 1 ≤ qtrunc q := by
  rw [qtrunc_of_nonneg (le_trans zero_le_one h)]
  exact Int.le_floor.mpr (by exact_mod_cast h)

theorem cpr_mod_nonneg (v : ℚ) {m : ℚ} (hm : 0 < m) : 0 ≤ _cpr_mod v m := by
  unfold _cpr_mod
  have hm0 : m ≠ 0 := ne_of_gt hm
  set r := v - m * (qtrunc (v / m) : ℚ) with hr
  by_cases hneg : r < 0
  · simp only [hneg, if_true]
    rcases lt_or_le (v / m) 0 with hq | hq
    · have h1 : (⌈v / m⌉ : ℚ) < v / m + 1 := Int.ceil_lt_add_one _
      have hrq : r = m * (v / m - (⌈v / m⌉ : ℚ)) := by
        rw [hr, qtrunc, if_pos hq]
        field_simp
      have hfr : v / m - (⌈v / m⌉ : ℚ) > -1 := by linarith
      have : r > m * (-1) := by
        rw [hrq]
        exact (mul_lt_mul_left hm).mpr (by linarith)
      linarith
    · have h1 : (⌊v / m⌋ : ℚ) ≤ v / m := Int.floor_le _
      have hrq : r = m * (v / m - (⌊v / m⌋ : ℚ)) := by
        rw [hr, qtrunc, if_neg (not_lt.mpr hq)]
        field_simp
      have : 0 ≤ r := by
        rw [hrq]
        exact mul_nonneg (le_of_lt hm) (by linarith)
      linarith
  · simpa [hneg] using le_of_not_lt hneg

theorem cpr_mod_lt (v : ℚ) {m : ℚ} (hm : 0 < m) : _cpr_mod v m < m := by
  unfold _cpr_mod
  have hm0 : m ≠ 0 := ne_of_gt hm
  set r := v - m * (qtrunc (v / m) : ℚ) with hr
  by_cases hneg : r < 0
  · simp only [hneg, if_true]
    rcases lt_or_le (v / m) 0 with hq | hq
    · have h1 : v / m ≤ (⌈v / m⌉ : ℚ) := Int.le_ceil _
      have hrq : r = m * (v / m - (⌈v / m⌉ : ℚ)) := by
        rw [hr, qtrunc, if_pos hq]
        field_simp
      have : r ≤ 0 := by
        rw [hrq]
        exact mul_nonpos_of_nonneg_of_nonpos (le_of_lt hm) (by linarith)
      linarith
    · linarith
  · simp only [hneg, if_false]
    rcases lt_or_le (v / m) 0 with hq | hq
    · have h1 : v / m ≤ (⌈v / m⌉ : ℚ) := Int.le_ceil _
      have hrq : r = m * (v / m - (⌈v / m⌉ : ℚ)) := by
        rw [hr, qtrunc, if_pos hq]
        field_simp
      have : r ≤ 0 := by
        rw [hrq]
        exact mul_nonpos_of_nonneg_of_nonpos (le_of_lt hm) (by linarith)
      linarith
    · have h1 : v / m < (⌊v / m⌋ : ℚ) + 1 := Int.lt_floor_add_one _
      have hrq : r = m * (v / m - (⌊v / m⌋ : ℚ)) := by
        rw [hr, qtrunc, if_neg (not_lt.mpr hq)]
        field_simp
      have : r < m * 1 := by
        rw [hrq]
        exact (mul_lt_mul_left hm).mpr (by linarith)
      linarith

/-! ## The binary search agrees with a linear first-breakpoint scan -/

theorem sorted_getD_le (a : List ℚ) (hs : List.Sorted (· ≤ ·) a) {i j : ℕ}
    (hij : i ≤ j) (hj : j < a.length) : a.getD i 0 ≤ a.getD j 0 := by
  rcases eq_or_lt_of_le hij with rfl | hlt
  · exact le_refl _
  · have hi : i < a.length := lt_trans hlt hj
    rw [List.getD_eq_getElem a 0 hi, List.getD_eq_getElem a 0 hj]
    exact List.pairwise_iff_get.mp hs ⟨i, hi⟩ ⟨j, hj⟩ hlt

theorem bisectLoop_spec (a : List ℚ) (x : ℚ) (hs : List.Sorted (· ≤ ·) a) :
    ∀ (n lo hi : ℕ), hi - lo ≤ n → lo ≤ hi → hi ≤ a.length →
    (∀ i, i < lo → a.getD i 0 < x) →
    (∀ i, hi ≤ i → i < a.length → x ≤ a.getD i 0) →
    (∀ i, i < bisectLoop a x lo hi → a.getD i 0 < x)
    ∧ (∀ i, bisectLoop a x lo hi ≤ i → i < a.length → x ≤ a.getD i 0)
    ∧ bisectLoop a x lo hi ≤ a.length := by
  intro n
  induction n with
  | zero =>
    intro lo hi hn hlohi hhi hlow hhigh
    have heq : lo = hi := by omega
    rw [bisectLoop]
    simp only [show ¬ lo < hi by omega, dite_false]
    exact ⟨hlow, fun i h1 h2 => hhigh i (heq ▸ h1) h2, heq ▸ hhi⟩
  | succ n ih =>
    intro lo hi hn hlohi hhi hlow hhigh
    rw [bisectLoop]
    by_cases hlt : lo < hi
    · simp only [hlt, dite_true]
      have hm1 : lo ≤ (lo + hi) / 2 :=
        (Nat.le_div_iff_mul_le (by norm_num)).mpr (by omega)
      have hm2 : (lo + hi) / 2 < hi :=
        (Nat.div_lt_iff_lt_mul (by norm_num)).mpr (by omega)
      by_cases hcmp : a.getD ((lo + hi) / 2) 0 < x
      · simp only [hcmp, if_true]
        refine ih ((lo + hi) / 2 + 1) hi (by omega) (by omega) hhi ?_ hhigh
        intro i hi'
        rcases lt_or_le i lo with h | h
        · exact hlow i h
        · exact lt_of_le_of_lt (sorted_getD_le a hs (by omega) (by omega)) hcmp
      · simp only [hcmp, if_false]
        refine ih lo ((lo + hi) / 2) (by omega) (by omega) (by omega) hlow ?_
        intro i h1 h2
        exact le_trans (le_of_not_lt hcmp) (sorted_getD_le a hs h1 h2)
    · simp only [hlt, dite_false]
      have heq : lo = hi := by omega
      exact ⟨hlow, fun i h1 h2 => hhigh i (heq ▸ h1) h2, heq ▸ hhi⟩

theorem bisect_left_spec (a : List ℚ) (x : ℚ) (hs : List.Sorted (· ≤ ·) a) :
    (∀ i, i < bisect_left a x → a.getD i 0 < x)
    ∧ (∀ i, bisect_left a x ≤ i → i < a.length → x ≤ a.getD i 0)
    ∧ bisect_left a x ≤ a.length :=
  bisectLoop_spec a x hs a.length 0 a.length (by omega) (by omega) le_rfl
    (fun i h => absurd h (Nat.not_lt_zero i))
    (fun i h1 h2 => absurd h2 (not_lt.mpr h1))

/-- The NL lookup as the spec words it: scan the table in ascending order and
return the zone count of the first breakpoint that is greater than or equal to
the requested (absolute) latitude; `1` when the latitude exceeds them all. -/
def nlSearch : List (ℚ × ℤ) → ℚ → ℤ
  | [], _ => 1
  | (b, v) :: rest, x => if x ≤ b then v else nlSearch rest x

theorem nl_lats_sorted : List.Sorted (· ≤ ·) _NL_LATS := by
  have h : List.Chain' (· ≤ ·) _NL_LATS := by
    simp only [_NL_LATS, _NL_TABLE, List.map_cons, List.map_nil, List.chain'_cons,
      List.chain'_singleton, List.chain'_nil]
    norm_num
  exact List.chain'_iff_pairwise.mp h

theorem nlSearch_of_idx (x : ℚ) :
    ∀ (table : List (ℚ × ℤ)) (idx : ℕ),
    (∀ i, i < idx → (table.map Prod.fst).getD i 0 < x) →
    (idx < table.length → x ≤ (table.map Prod.fst).getD idx 0) →
    nlSearch table x =
      if idx < table.length then (table.map Prod.snd).getD idx 0 else 1 := by
  intro table
  induction table with
  | nil => intro idx _ _; simp [nlSearch]
  | cons hd tl ih =>
    intro idx hlow hhigh
    obtain ⟨b, v⟩ := hd
    cases idx with
    | zero =>
      have hx : x ≤ b := by simpa using hhigh (by simp)
      simp [nlSearch, hx]
    | succ k =>
      have hb : b < x := by simpa using hlow 0 (Nat.succ_pos k)
      have hrec : nlSearch tl x =
          if k < tl.length then (tl.map Prod.snd).getD k 0 else 1 := by
        refine ih k ?_ ?_
        · intro i h
          simpa using hlow (i + 1) (by omega)
        · intro h
          simpa using hhigh (by simpa using Nat.succ_lt_succ h)
      simp only [nlSearch, if_neg (not_le.mpr hb)]
      rw [hrec]
      simp only [List.length_cons, List.map_cons]
      by_cases hk : k < tl.length
      · simp [hk, Nat.succ_lt_succ hk]
      · simp [hk, show ¬ k + 1 < tl.length + 1 by omega]

theorem nl_eq_nlSearch (lat : ℚ) : _cpr_nl lat = nlSearch _NL_TABLE |lat| := by
  obtain ⟨h1, h2, h3⟩ := bisect_left_spec _NL_LATS |lat| nl_lats_sorted
  have hlen : _NL_LATS.length = _NL_TABLE.length := List.length_map _ _
  have hlenv : _NL_VALS.length = _NL_TABLE.length := List.length_map _ _
  have hn := nlSearch_of_idx |lat| _NL_TABLE (bisect_left _NL_LATS |lat|) h1
    (fun h => h2 _ le_rfl (by omega))
  rw [hn]
  unfold _cpr_nl
  by_cases hidx : bisect_left _NL_LATS |lat| < _NL_TABLE.length
  · simp only [if_pos hidx, if_neg (by omega : ¬ bisect_left _NL_LATS |lat| ≥ _NL_VALS.length)]
    rfl
  · simp only [if_neg hidx, if_pos (by omega : bisect_left _NL_LATS |lat| ≥ _NL_VALS.length)]

/-! ## Zone counts and concrete zero-latitude evaluation -/

theorem one_le_cpr_n (lat : ℚ) (odd : Bool) : 1 ≤ _cpr_n lat odd := by
  unfold _cpr_n
  dsimp only
  split <;> omega

theorem cpr_n_eq_max (lat : ℚ) (odd : Bool) :
    _cpr_n lat odd = max 1 (_cpr_nl lat - (if odd then 1 else 0)) := by
  unfold _cpr_n
  dsimp only
  split <;> omega

theorem cpr_mod_zero (m : ℚ) : _cpr_mod 0 m = 0 := by
  simp [_cpr_mod, qtrunc]

theorem cpr_nl_zero : _cpr_nl 0 = 59 := by
  rw [nl_eq_nlSearch]
  norm_num [nlSearch, _NL_TABLE]

theorem cpr_encode_zero (odd : Bool) : _cpr_encode 0 0 odd = (0, 0) := by
  unfold _cpr_encode
  dsimp only
  set d : ℚ := 360 / (if odd then 59 else 60) with hd
  have h1 : (⌊(131072 : ℚ) * (_cpr_mod 0 d / d) + 1 / 2⌋ : ℤ) = 0 := by
    rw [cpr_mod_zero]
    norm_num
  rw [h1]
  have hrlat : d * (((0 : ℤ) : ℚ) / 131072 + (⌊(0 : ℚ) / d⌋ : ℚ)) = 0 := by
    simp [zero_div]
  rw [hrlat]
  have h2 : (⌊(131072 : ℚ) *
      (_cpr_mod 0 (360 / ((_cpr_n 0 odd : ℤ) : ℚ)) / (360 / ((_cpr_n 0 odd : ℤ) : ℚ))) +
      1 / 2⌋ : ℤ) = 0 := by
    rw [cpr_mod_zero]
    norm_num
  rw [h2]
  rfl

/-! ## Scalar encoder characterizations -/

theorem nat_or_eq_zero_iff (a b : ℕ) : a ||| b = 0 ↔ a = 0 ∧ b = 0 := by
  constructor
  · intro h
    constructor
    · by_contra ha
      obtain ⟨i, hi⟩ := Nat.exists_most_significant_bit ha
      have ht := Nat.testBit_lor a b i
      rw [h] at ht
      simp [hi.1] at ht
    · by_contra hb
      obtain ⟨i, hi⟩ := Nat.exists_most_significant_bit hb
      have ht := Nat.testBit_lor a b i
      rw [h] at ht
      simp [hi.1] at ht
  · rintro ⟨rfl, rfl⟩
    rfl

/-- The velocity quantization as C4 words it: optional pre-scale by one
quarter, truncate `|v| + 1.5`, clamp to 1023, sign bit `0x400` when the
original value was negative. -/
def c4Quant (v : ℚ) (ss : Bool) : ℕ :=
  min ((qtrunc ((if ss then |v| / 4 else |v|) + 3 / 2)).toNat) 1023
    ||| (if v < 0 then 0x400 else 0)

theorem encode_velocity_eq_claim (v : ℚ) (ss : Bool) :
    _encode_velocity (some v) ss = c4Quant v ss := by
  unfold _encode_velocity c4Quant
  dsimp only
  have habs : (if v < 0 then -v else v) = |v| := by
    split
    · exact (abs_of_neg (by assumption)).symm
    · exact (abs_of_nonneg (le_of_not_lt (by assumption))).symm
  rw [habs]
  have hclamp : ∀ z : ℤ, (if z > 1023 then (1023 : ℕ) else z.toNat) = min z.toNat 1023 := by
    intro z
    split <;> omega
  rw [hclamp]

theorem encode_velocity_ne_zero (v : ℚ) (ss : Bool) :
    _encode_velocity (some v) ss ≠ 0 := by
  unfold _encode_velocity
  dsimp only
  set k : ℚ := if v < 0 then -v else v with hk
  have hk0 : 0 ≤ k := by
    rw [hk]; split
    · linarith
    · exact le_of_not_lt (by assumption)
  set k2 : ℚ := if ss then k / 4 else k with hk2
  have hk20 : 0 ≤ k2 := by
    rw [hk2]; split
    · linarith
    · exact hk0
  have hval : 1 ≤ qtrunc (k2 + 3 / 2) := one_le_qtrunc (by linarith)
  intro h
  rw [nat_or_eq_zero_iff] at h
  have h1 := h.1
  split at h1 <;> omega

theorem encode_vrate_ne_zero (v : ℚ) : _encode_vrate (some v) ≠ 0 := by
  unfold _encode_vrate
  dsimp only
  set f : ℚ := if v < 0 then -v else v with hf
  have hf0 : 0 ≤ f := by
    rw [hf]; split
    · linarith
    · exact le_of_not_lt (by assumption)
  have hval : 1 ≤ qtrunc (f / 64 + 3 / 2) := one_le_qtrunc (by linarith)
  intro h
  rw [nat_or_eq_zero_iff] at h
  have h1 := h.1
  split at h1 <;> omega

/-- The vertical-rate code as C5 words it, with literal rounding of
`|fpm|/64 + 1.5`. -/
def c5Claim (fpm : ℚ) : ℕ :=
  min 511 ((round (|fpm| / 64 + 3 / 2)).toNat) ||| (if fpm < 0 then 0x200 else 0)

theorem encode_vrate_eq_trunc (fpm : ℚ) :
    _encode_vrate (some fpm) =
      min 511 ((qtrunc (|fpm| / 64 + 3 / 2)).toNat) ||| (if fpm < 0 then 0x200 else 0) := by
  unfold _encode_vrate
  dsimp only
  have habs : (if fpm < 0 then -fpm else fpm) = |fpm| := by
    split
    · exact (abs_of_neg (by assumption)).symm
    · exact (abs_of_nonneg (le_of_not_lt (by assumption))).symm
  rw [habs]
  have hclamp : ∀ z : ℤ, (if z > 511 then (511 : ℕ) else z.toNat) = min 511 z.toNat := by
    intro z
    split <;> omega
  rw [hclamp]

theorem encode_vrate_16 : _encode_vrate (some 16) = 1 := by
  unfold _encode_vrate
  dsimp only
  have h0 : ¬ ((16 : ℚ) < 0) := by norm_num
  have hq : qtrunc ((16 : ℚ) / 64 + 3 / 2) = 1 := by
    unfold qtrunc
    norm_num
  rw [if_neg h0, hq]
  rfl

theorem c5Claim_16 : c5Claim 16 = 2 := by
  unfold c5Claim
  have h0 : ¬ ((16 : ℚ) < 0) := by norm_num
  have hq : round (|(16 : ℚ)| / 64 + 3 / 2) = 2 := by
    rw [round_eq]
    rw [abs_of_nonneg (by norm_num : (0:ℚ) ≤ 16)]
    norm_num
  rw [if_neg h0, hq]
  rfl

/-- The altitude field as C3 words it, with literal rounding of
`(feet + 1012.5) / 25`. -/
def c3Claim (feet : ℚ) : ℕ :=
  (((max 0 (min 2047 (round ((feet + 2025 / 2) / 25)))).toNat &&& 0x7F0) <<< 1) ||| 0x010
    ||| ((max 0 (min 2047 (round ((feet + 2025 / 2) / 25)))).toNat &&& 0x00F)

theorem encode_altitude_eq_trunc (feet : ℚ) :
    _encode_altitude (some feet) =
      (((max 0 (min 2047 (qtrunc ((feet + 2025 / 2) / 25)))).toNat &&& 0x7F0) <<< 1) ||| 0x010
        ||| ((max 0 (min 2047 (qtrunc ((feet + 2025 / 2) / 25)))).toNat &&& 0x00F) := by
  unfold _encode_altitude
  dsimp only
  have hcl : (if qtrunc ((feet + 2025 / 2) / 25) < 0 then (0 : ℤ)
      else if qtrunc ((feet + 2025 / 2) / 25) > 2047 then 2047
      else qtrunc ((feet + 2025 / 2) / 25))
      = max 0 (min 2047 (qtrunc ((feet + 2025 / 2) / 25))) := by
    split
    · omega
    · split <;> omega
  rw [hcl]

theorem encode_altitude_30 : _encode_altitude (some 30) = 89 := by
  unfold _encode_altitude
  dsimp only
  have hq : qtrunc (((30 : ℚ) + 2025 / 2) / 25) = 41 := by
    unfold qtrunc
    norm_num
  rw [hq]
  rfl

theorem c3Claim_30 : c3Claim 30 = 90 := by
  unfold c3Claim
  have hq : round (((30 : ℚ) + 2025 / 2) / 25) = 42 := by
    rw [round_eq]
    norm_num
  rw [hq]
  rfl

/-! ## Frame-level helpers -/

/-- The checksum-sealing invariant of a finished frame: 14 bytes, trailer
bytes 11..13 holding the external parity of bytes 0..10 big-endian. -/
def frameOK (parity : List ℕ → ℕ) (f : List ℕ) : Prop :=
  f.length = 14
  ∧ f.getD 11 0 = (parity (f.take 11) >>> 16) &&& 0xFF
  ∧ f.getD 12 0 = (parity (f.take 11) >>> 8) &&& 0xFF
  ∧ f.getD 13 0 = parity (f.take 11) &&& 0xFF
  ∧ (parity (f.take 11) < 16777216 →
      f.getD 11 0 * 65536 + f.getD 12 0 * 256 + f.getD 13 0 = parity (f.take 11))

theorem be24_reassemble (p : ℕ) (hp : p < 16777216) :
    ((p >>> 16) &&& 0xFF) * 65536 + ((p >>> 8) &&& 0xFF) * 256 + (p &&& 0xFF) = p := by
  have h1 : (p >>> 16) &&& 0xFF = (p / 2 ^ 16) % 2 ^ 8 := by
    rw [Nat.shiftRight_eq_div_pow]
    simpa using Nat.and_pow_two_sub_one_eq_mod (p / 2 ^ 16) 8
  have h2 : (p >>> 8) &&& 0xFF = (p / 2 ^ 8) % 2 ^ 8 := by
    rw [Nat.shiftRight_eq_div_pow]
    simpa using Nat.and_pow_two_sub_one_eq_mod (p / 2 ^ 8) 8
  have h3 : p &&& 0xFF = p % 2 ^ 8 := by
    simpa using Nat.and_pow_two_sub_one_eq_mod p 8
  rw [h1, h2, h3]
  omega

theorem frameOK_apply_crc (parity : List ℕ → ℕ)
    (b0 b1 b2 b3 b4 b5 b6 b7 b8 b9 b10 : ℕ) :
    frameOK parity (_apply_crc parity [b0, b1, b2, b3, b4, b5, b6, b7, b8, b9, b10, 0, 0, 0]) := by
  refine ⟨rfl, rfl, rfl, rfl, ?_⟩
  intro hp
  exact be24_reassemble _ hp

/-- Modelled from the spec: the external Mode S checksum (`modes_crc.parity`)
is out of this repository's scope; the spec fixes only the call contract
`bytes[0..11] -> uint24` and that single-bit perturbations change the value.
This stand-in (byte `i` weighted by `2^i`, reduced mod `2^24`) satisfies both
and is used to instantiate the `parity` parameter on concrete inputs. -/
def specParity (bs : List ℕ) : ℕ :=
  (bs.foldr (fun b acc => b + 2 * acc) 0) % 16777216

/-- `supersonicFlag` is true exactly when some present component exceeds
1000 kt in magnitude. -/
theorem supersonicFlag_iff (ns ew : Option ℚ) :
    supersonicFlag ns ew = true ↔
      ((∃ v, ns = some v ∧ 1000 < |v|) ∨ (∃ v, ew = some v ∧ 1000 < |v|)) := by
  cases ns <;> cases ew <;>
    simp [supersonicFlag, velocitiesList]

theorem byte6_bits (a b : ℕ) (ha : a < 16) (hb : b < 4) :
    (((a <<< 4) ||| 0 ||| b) >>> 3 = a <<< 1)
    ∧ (((a <<< 4) ||| 4 ||| b) >>> 3 = a <<< 1)
    ∧ (((a <<< 4) ||| 0 ||| b) &&& 4 = 0)
    ∧ (((a <<< 4) ||| 4 ||| b) &&& 4 = 4)
    ∧ (((a <<< 4) ||| 0 ||| b) &&& 3 = b)
    ∧ (((a <<< 4) ||| 4 ||| b) &&& 3 = b) := by
  have h : ∀ (x : Fin 16) (y : Fin 4),
      (((x.val <<< 4) ||| 0 ||| y.val) >>> 3 = x.val <<< 1)
      ∧ (((x.val <<< 4) ||| 4 ||| y.val) >>> 3 = x.val <<< 1)
      ∧ (((x.val <<< 4) ||| 0 ||| y.val) &&& 4 = 0)
      ∧ (((x.val <<< 4) ||| 4 ||| y.val) &&& 4 = 4)
      ∧ (((x.val <<< 4) ||| 0 ||| y.val) &&& 3 = y.val)
      ∧ (((x.val <<< 4) ||| 4 ||| y.val) &&& 3 = y.val) := by decide
  exact h ⟨a, ha⟩ ⟨b, hb⟩

theorem make_position_frame_some (parity : List ℕ → ℕ)
    (metype addr elat elon ealt : ℕ) (oddflag : Bool) (df : String) (pi : ℕ × ℕ)
    (hdf : _make_frame_head df = some pi) :
    _make_position_frame parity metype addr elat elon ealt oddflag df =
      some (_apply_crc parity
        [pi.1,
         (addr >>> 16) &&& 0xFF,
         (addr >>> 8) &&& 0xFF,
         addr &&& 0xFF,
         (metype <<< 3) ||| pi.2,
         (ealt >>> 4) &&& 0xFF,
         ((ealt &&& 0x0F) <<< 4) ||| (if oddflag then 0x04 else 0) ||| ((elat >>> 15) &&& 0x03),
         (elat >>> 7) &&& 0xFF,
         ((elat &&& 0x7F) <<< 1) ||| ((elon >>> 16) &&& 0x01),
         (elon >>> 8) &&& 0xFF,
         elon &&& 0xFF,
         0, 0, 0]) := by
  unfold _make_position_frame
  rw [hdf]

theorem make_position_frame_frameOK (parity : List ℕ → ℕ)
    (metype addr elat elon ealt : ℕ) (oddflag : Bool) (df : String) (f : List ℕ)
    (h : _make_position_frame parity metype addr elat elon ealt oddflag df = some f) :
    frameOK parity f := by
  unfold _make_position_frame at h
  cases hdf : _make_frame_head df with
  | none =>
    rw [hdf] at h
    exact absurd h (by simp)
  | some pi =>
    rw [hdf] at h
    simp only [Option.some.injEq] at h
    subst h
    exact frameOK_apply_crc parity _ _ _ _ _ _ _ _ _ _ _

theorem make_velocity_frame_some (parity : List ℕ → ℕ) (addr : ℕ)
    (nsvel ewvel vrate : Option ℚ) (df : String) (pi : ℕ × ℕ)
    (hdf : _make_frame_head df = some pi) :
    make_velocity_frame parity addr nsvel ewvel vrate df =
      some (_apply_crc parity
        [pi.1,
         (addr >>> 16) &&& 0xFF,
         (addr >>> 8) &&& 0xFF,
         addr &&& 0xFF,
         (19 <<< 3) ||| (if supersonicFlag nsvel ewvel then 2 else 1),
         (pi.2 <<< 7) ||| ((_encode_velocity ewvel (supersonicFlag nsvel ewvel) >>> 8) &&& 0x07),
         _encode_velocity ewvel (supersonicFlag nsvel ewvel) &&& 0xFF,
         (_encode_velocity nsvel (supersonicFlag nsvel ewvel) >>> 3) &&& 0xFF,
         ((_encode_velocity nsvel (supersonicFlag nsvel ewvel) &&& 0x07) <<< 5) ||| 0x10
           ||| ((_encode_vrate vrate >>> 6) &&& 0x0F),
         (_encode_vrate vrate &&& 0x3F) <<< 2,
         0, 0, 0, 0]) := by
  unfold make_velocity_frame
  rw [hdf]

theorem make_velocity_frame_frameOK (parity : List ℕ → ℕ) (addr : ℕ)
    (nsvel ewvel vrate : Option ℚ) (df : String) (f : List ℕ)
    (h : make_velocity_frame parity addr nsvel ewvel vrate df = some f) :
    frameOK parity f := by
  unfold make_velocity_frame at h
  cases hdf : _make_frame_head df with
  | none =>
    rw [hdf] at h
    exact absurd h (by simp)
  | some pi =>
    rw [hdf] at h
    simp only [Option.some.injEq] at h
    subst h
    exact frameOK_apply_crc parity _ _ _ _ _ _ _ _ _ _ _

theorem make_position_frame_none (parity : List ℕ → ℕ)
    (metype addr elat elon ealt : ℕ) (oddflag : Bool) (df : String)
    (hdf : _make_frame_head df = none) :
    _make_position_frame parity metype addr elat elon ealt oddflag df = none := by
  unfold _make_position_frame
  rw [hdf]

theorem make_velocity_frame_none (parity : List ℕ → ℕ) (addr : ℕ)
    (nsvel ewvel vrate : Option ℚ) (df : String)
    (hdf : _make_frame_head df = none) :
    make_velocity_frame parity addr nsvel ewvel vrate df = none := by
  unfold make_velocity_frame
  rw [hdf]

theorem make_position_frame_pair_none (parity : List ℕ → ℕ) (addr : ℕ)
    (lat lon : ℚ) (alt : Option ℚ) (df : String)
    (hdf : _make_frame_head df = none) :
    make_position_frame_pair parity addr lat lon alt df = none := by
  unfold make_position_frame_pair
  rw [make_position_frame_none parity 18 addr _ _ _ false df hdf,
      make_position_frame_none parity 18 addr _ _ _ true df hdf]

theorem make_position_frame_pair_some (parity : List ℕ → ℕ) (addr : ℕ)
    (lat lon : ℚ) (alt : Option ℚ) (df : String) (pi : ℕ × ℕ)
    (hdf : _make_frame_head df = some pi) :
    make_position_frame_pair parity addr lat lon alt df =
      some (_apply_crc parity
        [pi.1,
         (addr >>> 16) &&& 0xFF,
         (addr >>> 8) &&& 0xFF,
         addr &&& 0xFF,
         (18 <<< 3) ||| pi.2,
         (_encode_altitude alt >>> 4) &&& 0xFF,
         ((_encode_altitude alt &&& 0x0F) <<< 4) ||| 0
           ||| (((_cpr_encode lat lon false).1 >>> 15) &&& 0x03),
         ((_cpr_encode lat lon false).1 >>> 7) &&& 0xFF,
         (((_cpr_encode lat lon false).1 &&& 0x7F) <<< 1)
           ||| (((_cpr_encode lat lon false).2 >>> 16) &&& 0x01),
         ((_cpr_encode lat lon false).2 >>> 8) &&& 0xFF,
         (_cpr_encode lat lon false).2 &&& 0xFF,
         0, 0, 0],
       _apply_crc parity
        [pi.1,
         (addr >>> 16) &&& 0xFF,
         (addr >>> 8) &&& 0xFF,
         addr &&& 0xFF,
         (18 <<< 3) ||| pi.2,
         (_encode_altitude alt >>> 4) &&& 0xFF,
         ((_encode_altitude alt &&& 0x0F) <<< 4) ||| 4
           ||| (((_cpr_encode lat lon true).1 >>> 15) &&& 0x03),
         ((_cpr_encode lat lon true).1 >>> 7) &&& 0xFF,
         (((_cpr_encode lat lon true).1 &&& 0x7F) <<< 1)
           ||| (((_cpr_encode lat lon true).2 >>> 16) &&& 0x01),
         ((_cpr_encode lat lon true).2 >>> 8) &&& 0xFF,
         (_cpr_encode lat lon true).2 &&& 0xFF,
         0, 0, 0]) := by
  unfold make_position_frame_pair
  rw [make_position_frame_some parity 18 addr _ _ _ false df pi hdf,
      make_position_frame_some parity 18 addr _ _ _ true df pi hdf]
  rfl

/-! ## Claim theorems -/

theorem emod_toNat_lt (z : ℤ) : (z.emod 131072).toNat < 131072 := by
  have h1 : 0 ≤ z.emod 131072 := Int.emod_nonneg z (by norm_num : (131072 : ℤ) ≠ 0)
  have h2 : z.emod 131072 < 131072 := Int.emod_lt_of_pos z (by norm_num : (0 : ℤ) < 131072)
  omega

theorem nlSearch_all_lt (x : ℚ) :
    ∀ table : List (ℚ × ℤ), (∀ b ∈ table.map Prod.fst, b < x) → nlSearch table x = 1 := by
  intro table
  induction table with
  | nil => intro _; rfl
  | cons hd tl ih =>
    intro h
    obtain ⟨b, v⟩ := hd
    have hb : b < x := h b (by simp)
    simp only [nlSearch, if_neg (not_le.mpr hb)]
    exact ih fun c hc => h c (by simp [hc])

/-- C1: for every latitude, longitude and frame parity, `_cpr_encode`
divides the latitude span into 59 (odd) or 60 (even) zones, its normalized
modulo always lands in `[0, dlat)`, the latitude code is
`floor(2^17 · fraction + 1/2)` reduced mod `2^17` (the `& 0x1FFFF` mask),
the longitude code is produced by the same procedure with
`dlon = 360 / zones(rlat, odd)` at the zone-local latitude `rlat` recovered
from the quantized latitude code, and both returned codes lie in
`[0, 2^17)`. -/
theorem c1_cpr_encode_shape (lat lon : ℚ) (odd : Bool) :
    0 ≤ _cpr_mod lat (360 / (if odd then 59 else 60))
    ∧ _cpr_mod lat (360 / (if odd then 59 else 60)) < 360 / (if odd then 59 else 60)
    ∧ (_cpr_encode lat lon odd).1 =
        ((⌊(131072 : ℚ) * (_cpr_mod lat (360 / (if odd then 59 else 60)) /
            (360 / (if odd then 59 else 60))) + 1 / 2⌋).emod 131072).toNat
    ∧ (let dlat : ℚ := 360 / (if odd then 59 else 60)
       let yz : ℤ := ⌊(131072 : ℚ) * (_cpr_mod lat dlat / dlat) + 1 / 2⌋
       let rlat : ℚ := dlat * ((yz : ℚ) / 131072 + (⌊lat / dlat⌋ : ℚ))
       let dlon : ℚ := 360 / ((_cpr_n rlat odd : ℤ) : ℚ)
       0 ≤ _cpr_mod lon dlon ∧ _cpr_mod lon dlon < dlon
       ∧ (_cpr_encode lat lon odd).2 =
           ((⌊(131072 : ℚ) * (_cpr_mod lon dlon / dlon) + 1 / 2⌋).emod 131072).toNat)
    ∧ (_cpr_encode lat lon odd).1 < 131072
    ∧ (_cpr_encode lat lon odd).2 < 131072 := by
  have hdlat : (0 : ℚ) < 360 / (if odd then 59 else 60) := by
    cases odd <;> norm_num
  refine ⟨cpr_mod_nonneg lat hdlat, cpr_mod_lt lat hdlat, rfl, ?_, ?_, ?_⟩
  · dsimp only
    have hn := one_le_cpr_n (360 / (if odd then 59 else 60) *
      ((⌊(131072 : ℚ) * (_cpr_mod lat (360 / (if odd then 59 else 60)) /
          (360 / (if odd then 59 else 60))) + 1 / 2⌋ : ℚ) / 131072 +
        (⌊lat / (360 / (if odd then 59 else 60))⌋ : ℚ))) odd
    have hdlon : (0 : ℚ) < 360 / ((_cpr_n (360 / (if odd then 59 else 60) *
        ((⌊(131072 : ℚ) * (_cpr_mod lat (360 / (if odd then 59 else 60)) /
            (360 / (if odd then 59 else 60))) + 1 / 2⌋ : ℚ) / 131072 +
          (⌊lat / (360 / (if odd then 59 else 60))⌋ : ℚ))) odd : ℤ) : ℚ) := by
      apply div_pos (by norm_num)
      exact_mod_cast lt_of_lt_of_le zero_lt_one hn
    exact ⟨cpr_mod_nonneg lon hdlon, cpr_mod_lt lon hdlon, rfl⟩
  · exact emod_toNat_lt _
  · exact emod_toNat_lt _

/-- C2: the NL lookup (a `bisect_left` binary search over the sorted 59-row
breakpoint table) returns the zone count of the first breakpoint at least
the absolute latitude, returns 1 when the latitude exceeds every breakpoint,
and the per-parity zone count is `NL(lat) - (1 if odd else 0)` floored at 1,
hence never zero or negative. -/
theorem c2_nl_lookup (lat : ℚ) (odd : Bool) :
    _NL_TABLE.length = 59
    ∧ _cpr_nl lat = nlSearch _NL_TABLE |lat|
    ∧ ((∀ b ∈ _NL_LATS, b < |lat|) → _cpr_nl lat = 1)
    ∧ _cpr_n lat odd = max 1 (_cpr_nl lat - (if odd then 1 else 0))
    ∧ 1 ≤ _cpr_n lat odd := by
  refine ⟨rfl, nl_eq_nlSearch lat, ?_, cpr_n_eq_max lat odd, one_le_cpr_n lat odd⟩
  intro hall
  rw [nl_eq_nlSearch lat]
  exact nlSearch_all_lt |lat| _NL_TABLE hall

theorem nl_lats_all_le_90 : ∀ b ∈ _NL_LATS, b ≤ 90 := by
  simp only [_NL_LATS, _NL_TABLE, List.map_cons, List.map_nil, List.forall_mem_cons]
  norm_num

/-- C2 witness: at latitude 91 every breakpoint is exceeded and the zone
count degrades to the polar value 1. -/
theorem c2_nl_lookup_witness : _cpr_nl 91 = 1 :=
  (c2_nl_lookup 91 false).2.2.1 (fun b hb => by
    have h1 := nl_lats_all_le_90 b hb
    have h2 : |(91 : ℚ)| = 91 := by norm_num
    rw [h2]
    linarith)

/-- C3 counterexample: at 30 ft the encoder truncates `(30 + 1012.5)/25 = 41.7`
to index 41 (field `0x59`), while the claim's rounding gives index 42
(field `0x5A`). -/
theorem c3_altitude_counterexample :
    _encode_altitude (some 30) = 89 ∧ c3Claim 30 = 90
    ∧ _encode_altitude (some 30) ≠ c3Claim 30 := by
  refine ⟨encode_altitude_30, c3Claim_30, ?_⟩
  rw [encode_altitude_30, c3Claim_30]
  omega

/-- C3 amended: the altitude index is the integer truncation (not rounding)
of `(feet + 1012.5)/25`, clamped to `[0, 0x7FF]`, and the returned field
interleaves the Q-bit marker `0x010` between the two nibble groups:
`((index & 0x7F0) << 1) | 0x010 | (index & 0x00F)`. -/
theorem c3_altitude_encoder (feet : ℚ) :
    _encode_altitude (some feet) =
      (((max 0 (min 2047 (qtrunc ((feet + 2025 / 2) / 25)))).toNat &&& 0x7F0) <<< 1) ||| 0x010
        ||| ((max 0 (min 2047 (qtrunc ((feet + 2025 / 2) / 25)))).toNat &&& 0x00F) :=
  encode_altitude_eq_trunc feet

/-- C5 counterexample: at 16 fpm the encoder truncates `16/64 + 1.5 = 1.75`
to 1, while the claim's rounding gives 2. -/
theorem c5_vrate_counterexample :
    _encode_vrate (some 16) = 1 ∧ c5Claim 16 = 2
    ∧ _encode_vrate (some 16) ≠ c5Claim 16 := by
  refine ⟨encode_vrate_16, c5Claim_16, ?_⟩
  rw [encode_vrate_16, c5Claim_16]
  omega

/-- C5 amended: the vertical-rate code is the integer truncation (not
rounding) of `|fpm|/64 + 1.5`, clamped to 511, with sign bit `0x200` set
exactly when the rate is negative. -/
theorem c5_vrate_encoder (fpm : ℚ) :
    _encode_vrate (some fpm) =
      min 511 ((qtrunc (|fpm| / 64 + 3 / 2)).toNat) ||| (if fpm < 0 then 0x200 else 0) :=
  encode_vrate_eq_trunc fpm

/-- C4: the supersonic flag is shared by the pair and true exactly when a
present component exceeds 1000 kt; the frame's subtype byte is
`(19 << 3) | 2` when supersonic and `(19 << 3) | 1` otherwise; each present
component is quantized as the truncation of the (possibly quarter-scaled)
magnitude plus 1.5, clamped to 1023, with sign bit `0x400` exactly for a
negative original value; and the two quantized components are packed into
bytes 6/7 of the frame with that same shared flag. -/
theorem c4_velocity_frame (parity : List ℕ → ℕ) (addr : ℕ)
    (ns ew vr : Option ℚ) (df : String) (f : List ℕ)
    (h : make_velocity_frame parity addr ns ew vr df = some f) :
    (supersonicFlag ns ew = true ↔
      ((∃ v, ns = some v ∧ 1000 < |v|) ∨ (∃ v, ew = some v ∧ 1000 < |v|)))
    ∧ f.getD 4 0 = (19 <<< 3) ||| (if supersonicFlag ns ew then 2 else 1)
    ∧ (∀ v, ns = some v →
        _encode_velocity (some v) (supersonicFlag ns ew) = c4Quant v (supersonicFlag ns ew))
    ∧ (∀ v, ew = some v →
        _encode_velocity (some v) (supersonicFlag ns ew) = c4Quant v (supersonicFlag ns ew))
    ∧ f.getD 7 0 = (_encode_velocity ns (supersonicFlag ns ew) >>> 3) &&& 0xFF
    ∧ f.getD 6 0 = _encode_velocity ew (supersonicFlag ns ew) &&& 0xFF := by
  cases hdf : _make_frame_head df with
  | none =>
    rw [make_velocity_frame_none parity addr ns ew vr df hdf] at h
    exact absurd h (by simp)
  | some pi =>
    rw [make_velocity_frame_some parity addr ns ew vr df pi hdf] at h
    simp only [Option.some.injEq] at h
    subst h
    exact ⟨supersonicFlag_iff ns ew, rfl,
      fun v _ => encode_velocity_eq_claim v _,
      fun v _ => encode_velocity_eq_claim v _,
      rfl, rfl⟩

/-- C4 witness: with a 1200 kt north-south component the shared flag is
supersonic. -/
theorem c4_velocity_frame_witness :
    supersonicFlag (some 1200) (some (-100)) = true ↔
      ((∃ v, (some (1200 : ℚ)) = some v ∧ 1000 < |v|)
        ∨ (∃ v, (some (-100 : ℚ)) = some v ∧ 1000 < |v|)) :=
  (c4_velocity_frame (fun _ => 0) 0 (some 1200) (some (-100)) none "DF18" _
    (make_velocity_frame_some (fun _ => 0) 0 (some 1200) (some (-100)) none "DF18"
      (146, 0) rfl)).1

/-- C9: a component magnitude of 1021.5 kt in the non-supersonic case
saturates the 10-bit magnitude field at 1023 (and a negative component of
the same magnitude carries the sign bit on top of the saturated field). -/
theorem c9_velocity_saturation :
    _encode_velocity (some (2043 / 2)) false = 1023
    ∧ _encode_velocity (some (-(2043 / 2))) false = 0x400 ||| 1023 := by
  constructor
  · unfold _encode_velocity
    dsimp only
    simp only [Bool.false_eq_true, if_false]
    have h0 : ¬ ((2043 : ℚ) / 2 < 0) := by norm_num
    have hq : qtrunc ((2043 : ℚ) / 2 + 3 / 2) = 1023 := by
      unfold qtrunc
      norm_num
    rw [if_neg h0, if_neg h0, hq]
    rfl
  · unfold _encode_velocity
    dsimp only
    simp only [Bool.false_eq_true, if_false]
    have h0 : (-((2043 : ℚ) / 2) < 0) := by norm_num
    have hq : qtrunc (-(-((2043 : ℚ) / 2)) + 3 / 2) = 1023 := by
      unfold qtrunc
      norm_num
    rw [if_pos h0, if_pos h0, hq]
    rfl

/-- C6: every frame produced by the three public operations is exactly 14
bytes long, and bytes 11..13 hold, big-endian, the 24-bit external parity of
bytes 0..10 of that same frame. -/
theorem c6_frames_sealed (parity : List ℕ → ℕ) (addr : ℕ) (lat lon : ℚ)
    (alt ns ew vr : Option ℚ) (df : String) :
    (∀ fe fo, make_position_frame_pair parity addr lat lon alt df = some (fe, fo) →
        frameOK parity fe ∧ frameOK parity fo)
    ∧ (∀ f, make_altitude_only_frame parity addr alt df = some f → frameOK parity f)
    ∧ (∀ f, make_velocity_frame parity addr ns ew vr df = some f → frameOK parity f) := by
  refine ⟨?_, ?_, ?_⟩
  · intro fe fo h
    cases hdf : _make_frame_head df with
    | none =>
      rw [make_position_frame_pair_none parity addr lat lon alt df hdf] at h
      exact absurd h (by simp)
    | some pi =>
      rw [make_position_frame_pair_some parity addr lat lon alt df pi hdf] at h
      simp only [Option.some.injEq, Prod.mk.injEq] at h
      obtain ⟨h1, h2⟩ := h
      subst h1
      subst h2
      exact ⟨frameOK_apply_crc parity _ _ _ _ _ _ _ _ _ _ _,
        frameOK_apply_crc parity _ _ _ _ _ _ _ _ _ _ _⟩
  · intro f h
    exact make_position_frame_frameOK parity 0 addr 0 0 (_encode_altitude alt) false df f h
  · intro f h
    exact make_velocity_frame_frameOK parity addr ns ew vr df f h

/-- C6 witness: the altitude-only frame at address 0 with no altitude, under
the all-zero stand-in parity. -/
theorem c6_frames_sealed_witness :
    frameOK (fun _ => 0) [146, 0, 0, 0, 0, 0, 0, 0, 0, 0, 0, 0, 0, 0] :=
  (c6_frames_sealed (fun _ => 0) 0 0 0 none none none none "DF18").2.1
    [146, 0, 0, 0, 0, 0, 0, 0, 0, 0, 0, 0, 0, 0] rfl


theorem apply_crc_length (parity : List ℕ → ℕ)
    (b0 b1 b2 b3 b4 b5 b6 b7 b8 b9 b10 : ℕ) :
    (_apply_crc parity [b0, b1, b2, b3, b4, b5, b6, b7, b8, b9, b10, 0, 0, 0]).length = 14 := rfl

theorem apply_crc_take6 (parity : List ℕ → ℕ)
    (b0 b1 b2 b3 b4 b5 b6 b7 b8 b9 b10 : ℕ) :
    (_apply_crc parity [b0, b1, b2, b3, b4, b5, b6, b7, b8, b9, b10, 0, 0, 0]).take 6
      = [b0, b1, b2, b3, b4, b5] := rfl

theorem apply_crc_getD6 (parity : List ℕ → ℕ)
    (b0 b1 b2 b3 b4 b5 b6 b7 b8 b9 b10 : ℕ) :
    (_apply_crc parity [b0, b1, b2, b3, b4, b5, b6, b7, b8, b9, b10, 0, 0, 0]).getD 6 0 = b6 := rfl

theorem apply_crc_getD7 (parity : List ℕ → ℕ)
    (b0 b1 b2 b3 b4 b5 b6 b7 b8 b9 b10 : ℕ) :
    (_apply_crc parity [b0, b1, b2, b3, b4, b5, b6, b7, b8, b9, b10, 0, 0, 0]).getD 7 0 = b7 := rfl

theorem apply_crc_getD5 (parity : List ℕ → ℕ)
    (b0 b1 b2 b3 b4 b5 b6 b7 b8 b9 b10 : ℕ) :
    (_apply_crc parity [b0, b1, b2, b3, b4, b5, b6, b7, b8, b9, b10, 0, 0, 0]).getD 5 0 = b5 := rfl

theorem apply_crc_getD8 (parity : List ℕ → ℕ)
    (b0 b1 b2 b3 b4 b5 b6 b7 b8 b9 b10 : ℕ) :
    (_apply_crc parity [b0, b1, b2, b3, b4, b5, b6, b7, b8, b9, b10, 0, 0, 0]).getD 8 0 = b8 := rfl

theorem apply_crc_getD9 (parity : List ℕ → ℕ)
    (b0 b1 b2 b3 b4 b5 b6 b7 b8 b9 b10 : ℕ) :
    (_apply_crc parity [b0, b1, b2, b3, b4, b5, b6, b7, b8, b9, b10, 0, 0, 0]).getD 9 0 = b9 := rfl

theorem apply_crc_getD10 (parity : List ℕ → ℕ)
    (b0 b1 b2 b3 b4 b5 b6 b7 b8 b9 b10 : ℕ) :
    (_apply_crc parity [b0, b1, b2, b3, b4, b5, b6, b7, b8, b9, b10, 0, 0, 0]).getD 10 0 = b10 := rfl

/-- C7 amended: the even and odd frames agree on bytes 0..5 and on the upper
five bits of byte 6; they differ only in the CPR-parity bit (byte 6 bit 2:
clear in the even frame, set in the odd frame), the latitude and longitude
code fields (byte 6 bits 0..1 and bytes 7..10), and the checksum trailer
(bytes 11..13); the even-parity frame comes first. -/
theorem c7_pair_amended (parity : List ℕ → ℕ) (addr : ℕ) (lat lon : ℚ)
    (alt : Option ℚ) (df : String) (fe fo : List ℕ)
    (h : make_position_frame_pair parity addr lat lon alt df = some (fe, fo)) :
    fe.length = 14 ∧ fo.length = 14
    ∧ fe.take 6 = fo.take 6
    ∧ fe.getD 6 0 >>> 3 = fo.getD 6 0 >>> 3
    ∧ fe.getD 6 0 &&& 4 = 0 ∧ fo.getD 6 0 &&& 4 = 4
    ∧ fe.getD 6 0 &&& 3 = ((_cpr_encode lat lon false).1 >>> 15) &&& 3
    ∧ fo.getD 6 0 &&& 3 = ((_cpr_encode lat lon true).1 >>> 15) &&& 3
    ∧ fe.getD 7 0 = ((_cpr_encode lat lon false).1 >>> 7) &&& 0xFF
    ∧ fo.getD 7 0 = ((_cpr_encode lat lon true).1 >>> 7) &&& 0xFF := by
  cases hdf : _make_frame_head df with
  | none =>
    rw [make_position_frame_pair_none parity addr lat lon alt df hdf] at h
    exact absurd h (by simp)
  | some pi =>
    rw [make_position_frame_pair_some parity addr lat lon alt df pi hdf] at h
    simp only [Option.some.injEq, Prod.mk.injEq] at h
    obtain ⟨h1, h2⟩ := h
    subst h1
    subst h2
    have ha : _encode_altitude alt &&& 0x0F < 16 :=
      lt_of_le_of_lt Nat.and_le_right (by norm_num)
    have hbe : ((_cpr_encode lat lon false).1 >>> 15) &&& 0x03 < 4 :=
      lt_of_le_of_lt Nat.and_le_right (by norm_num)
    have hbo : ((_cpr_encode lat lon true).1 >>> 15) &&& 0x03 < 4 :=
      lt_of_le_of_lt Nat.and_le_right (by norm_num)
    obtain ⟨he1, _, he3, _, he5, _⟩ :=
      byte6_bits (_encode_altitude alt &&& 0x0F)
        (((_cpr_encode lat lon false).1 >>> 15) &&& 0x03) ha hbe
    obtain ⟨_, ho2, _, ho4, _, ho6⟩ :=
      byte6_bits (_encode_altitude alt &&& 0x0F)
        (((_cpr_encode lat lon true).1 >>> 15) &&& 0x03) ha hbo
    rw [apply_crc_length, apply_crc_length, apply_crc_take6, apply_crc_take6,
      apply_crc_getD6, apply_crc_getD6, apply_crc_getD7, apply_crc_getD7]
    refine ⟨rfl, rfl, rfl, ?_, he3, ho4, he5, ho6, rfl, rfl⟩
    rw [he1, ho2]

/-- The pair property exactly as C7 states it: for the returned frames,
every byte position outside the CPR-parity bit and the 17-bit latitude and
longitude code fields is identical — in particular bytes 0..5, the upper
five bits of byte 6, and the checksum trailer bytes 11..13. -/
def c7ClaimAt (parity : List ℕ → ℕ) (addr : ℕ) (lat lon : ℚ)
    (alt : Option ℚ) (df : String) : Prop :=
  ∀ fe fo, make_position_frame_pair parity addr lat lon alt df = some (fe, fo) →
    fe.take 6 = fo.take 6 ∧ fe.getD 6 0 >>> 3 = fo.getD 6 0 >>> 3
    ∧ fe.drop 11 = fo.drop 11

/-- C7 counterexample: under a conforming stand-in parity the even and odd
frames for `(addr 0, lat 0, lon 0, no altitude)` already differ in checksum
byte 12, which is neither the parity bit nor a position code field, so the
frames do not differ only in those fields. -/
theorem c7_pair_counterexample : ¬ c7ClaimAt specParity 0 0 0 none "DF18" := by
  intro h
  have hpair := make_position_frame_pair_some specParity 0 0 0 none "DF18" (146, 0) rfl
  rw [cpr_encode_zero, cpr_encode_zero] at hpair
  have h3 := (h _ _ hpair).2.2
  exact absurd h3 (by decide)

/-- C7 witness: the parity bit of the even frame of a concrete pair is
clear. -/
theorem c7_pair_amended_witness :
    (_apply_crc (fun _ => 0)
      [(146, 0).1,
       ((0 : ℕ) >>> 16) &&& 0xFF,
       ((0 : ℕ) >>> 8) &&& 0xFF,
       (0 : ℕ) &&& 0xFF,
       (18 <<< 3) ||| (146, 0).2,
       (_encode_altitude none >>> 4) &&& 0xFF,
       ((_encode_altitude none &&& 0x0F) <<< 4) ||| 0
         ||| (((_cpr_encode 0 0 false).1 >>> 15) &&& 0x03),
       ((_cpr_encode 0 0 false).1 >>> 7) &&& 0xFF,
       (((_cpr_encode 0 0 false).1 &&& 0x7F) <<< 1)
         ||| (((_cpr_encode 0 0 false).2 >>> 16) &&& 0x01),
       ((_cpr_encode 0 0 false).2 >>> 8) &&& 0xFF,
       (_cpr_encode 0 0 false).2 &&& 0xFF,
       0, 0, 0]).getD 6 0 &&& 4 = 0 :=
  (c7_pair_amended (fun _ => 0) 0 0 0 none "DF18" _ _
    (make_position_frame_pair_some (fun _ => 0) 0 0 0 none "DF18" (146, 0) rfl)).2.2.2.2.1

/-- C8: the variant resolution maps `DF18` to format byte `(18<<3)|2` with
IMF 0, `DF18ANON` to `(18<<3)|5` with IMF 0 and `DF18TRACK` to `(18<<3)|2`
with IMF 1; every other variant string resolves to an error, and all three
public operations then fail with `none` before any frame bytes are written,
never silently defaulting to a known variant. -/
theorem c8_variant_resolution (parity : List ℕ → ℕ) (addr : ℕ) (lat lon : ℚ)
    (alt ns ew vr : Option ℚ) (df : String)
    (h : df ≠ "DF18" ∧ df ≠ "DF18ANON" ∧ df ≠ "DF18TRACK") :
    _make_frame_head "DF18" = some ((18 <<< 3) ||| 2, 0)
    ∧ _make_frame_head "DF18ANON" = some ((18 <<< 3) ||| 5, 0)
    ∧ _make_frame_head "DF18TRACK" = some ((18 <<< 3) ||| 2, 1)
    ∧ _make_frame_head df = none
    ∧ make_position_frame_pair parity addr lat lon alt df = none
    ∧ make_altitude_only_frame parity addr alt df = none
    ∧ make_velocity_frame parity addr ns ew vr df = none := by
  have hdf : _make_frame_head df = none := by
    unfold _make_frame_head
    rw [if_neg h.1, if_neg h.2.1, if_neg h.2.2]
  exact ⟨rfl, rfl, rfl, hdf,
    make_position_frame_pair_none parity addr lat lon alt df hdf,
    make_position_frame_none parity 0 addr 0 0 (_encode_altitude alt) false df hdf,
    make_velocity_frame_none parity addr ns ew vr df hdf⟩

/-- C8 witness: the unknown variant string `DF17` is rejected and the
velocity operation fails with no frame. -/
theorem c8_variant_resolution_witness :
    _make_frame_head "DF17" = none
    ∧ make_velocity_frame (fun _ => 0) 0 none none none "DF17" = none := by
  have h := c8_variant_resolution (fun _ => 0) 0 0 0 none none none none "DF17"
    ⟨by decide, by decide, by decide⟩
  exact ⟨h.2.2.2.1, h.2.2.2.2.2.2⟩

/-- C10: absent optional scalars (altitude, either velocity component,
vertical rate) encode to the null code 0 and never fail;
`make_altitude_only_frame` with an absent altitude succeeds and yields a
frame whose altitude field bytes and both CPR code fields are all zero; and
every present velocity or vertical-rate value, including 0, encodes to a
nonzero code, so code 0 uniquely identifies an absent value. -/
theorem c10_null_codes (parity : List ℕ → ℕ) (addr : ℕ) (s : Bool) :
    _encode_altitude none = 0
    ∧ _encode_velocity none s = 0
    ∧ _encode_vrate none = 0
    ∧ (∀ v : ℚ, _encode_velocity (some v) s ≠ 0)
    ∧ (∀ v : ℚ, _encode_vrate (some v) ≠ 0)
    ∧ (make_altitude_only_frame parity addr none "DF18").isSome = true
    ∧ (make_velocity_frame parity addr none none none "DF18").isSome = true
    ∧ (∀ f, make_altitude_only_frame parity addr none "DF18" = some f →
        f.getD 5 0 = 0 ∧ f.getD 6 0 = 0 ∧ f.getD 7 0 = 0 ∧ f.getD 8 0 = 0
        ∧ f.getD 9 0 = 0 ∧ f.getD 10 0 = 0) := by
  have hframe := make_position_frame_some parity 0 addr 0 0 (_encode_altitude none)
    false "DF18" (146, 0) rfl
  have hvel := make_velocity_frame_some parity addr none none none "DF18" (146, 0) rfl
  refine ⟨rfl, rfl, rfl, fun v => encode_velocity_ne_zero v s, encode_vrate_ne_zero,
    ?_, ?_, ?_⟩
  · show (_make_position_frame parity 0 addr 0 0 (_encode_altitude none) false "DF18").isSome = true
    rw [hframe]
    rfl
  · rw [hvel]
    rfl
  · intro f hf
    have hf' : _make_position_frame parity 0 addr 0 0 (_encode_altitude none)
        false "DF18" = some f := hf
    rw [hframe] at hf'
    simp only [Option.some.injEq] at hf'
    subst hf'
    rw [apply_crc_getD5, apply_crc_getD6, apply_crc_getD7, apply_crc_getD8,
      apply_crc_getD9, apply_crc_getD10]
    exact ⟨rfl, rfl, rfl, rfl, rfl, rfl⟩

/-- C10 witness: the altitude-only frame with absent altitude at address 0
carries zero altitude-field bytes and zero CPR fields. -/
theorem c10_null_codes_witness :
    ([146, 0, 0, 0, 0, 0, 0, 0, 0, 0, 0, 0, 0, 0] : List ℕ).getD 5 0 = 0
    ∧ ([146, 0, 0, 0, 0, 0, 0, 0, 0, 0, 0, 0, 0, 0] : List ℕ).getD 6 0 = 0
    ∧ ([146, 0, 0, 0, 0, 0, 0, 0, 0, 0, 0, 0, 0, 0] : List ℕ).getD 7 0 = 0
    ∧ ([146, 0, 0, 0, 0, 0, 0, 0, 0, 0, 0, 0, 0, 0] : List ℕ).getD 8 0 = 0
    ∧ ([146, 0, 0, 0, 0, 0, 0, 0, 0, 0, 0, 0, 0, 0] : List ℕ).getD 9 0 = 0
    ∧ ([146, 0, 0, 0, 0, 0, 0, 0, 0, 0, 0, 0, 0, 0] : List ℕ).getD 10 0 = 0 :=
  (c10_null_codes (fun _ => 0) 0 true).2.2.2.2.2.2.2
    [146, 0, 0, 0, 0, 0, 0, 0, 0, 0, 0, 0, 0, 0] rfl
